import Mathlib

/-!
# Verification of CosmosDBOps database operations

Shallow embedding of `src/main/database_ops.py` and
`src/main/utilities/utils.py` (class `DBOps` and its numeric helpers).

Modelling conventions:
* A Mongo patient document is a record `PatientRec`; the `patient` and
  `models` collections form a `DB` value.  Mongo's generated `ObjectId`s
  are modelled as natural-number surrogates (`pid`, model index).
* Numeric field values (heights, weights, ages) are rationals.  Python's
  `round(_, 2)` and `math.sqrt` on floats have no exact rational
  counterpart, so `calculate_bmi` / `calculate_mosteller_bsa` take the
  2-decimal rounding map and the rounded square root (on non-negative
  arguments) as explicit function parameters; no claim here depends on
  their values.  Their raise paths are modelled explicitly: `math.sqrt`
  raises `ValueError` on a negative argument, and the division in
  `calculate_bmi` raises `ZeroDivisionError` when the squared height is
  zero.  The `math.isnan` guards in the source are unreachable for
  rational inputs and are dropped.
* Python exceptions (`SystemExit`, `ValueError`, ...) are modelled with
  `Except String`; operations that mutate the database before raising
  return the mutated database next to the outcome, mirroring the fact
  that an exception does not roll writes back.
* The `series` field of a stored document is a string or a list of
  strings (`SVal`).  The `series` *argument* of `get_patient_collection`
  is a string or a two-element list; the source accepts lists of any
  length but every documented call site and the spec use pairs, so the
  argument is modelled as `SeriesArg.pair`.
-/

namespace CosmosDBOps

/-- Value stored in a document's `internal_info.series` field:
either a single series name or a list of names. -/
inductive SVal where
  | str (s : String)
  | list (l : List String)
deriving DecidableEq, Repr

/-- The `series` argument accepted by `DBOps.get_patient_collection`:
a scalar series name or a two-element list. -/
inductive SeriesArg where
  | scalar (s : String)
  | pair (a b : String)
deriving DecidableEq, Repr

/-- Python truthiness of a series value (`if series:` in `to_query`):
the empty string and the empty list are falsy. -/
def svalTruthy : SVal → Bool
  | .str s => s ≠ ""
  | .list l => !l.isEmpty

/-- A document of the `patient` collection, restricted to the fields the
operations under verification read or write.  `pid` stands for the Mongo
`_id`, `models` for the id of the linked models document. -/
structure PatientRec where
  pid : ℕ
  internal_id : ℤ
  series : SVal
  age : Option ℚ := none
  gender : Option String := none
  height : Option ℚ := none
  weight : Option ℚ := none
  bmi : Option ℚ := none
  bsa : Option ℚ := none
  origin_location : Option String := none
  models : ℕ := 0
deriving DecidableEq, Repr

/-- The database state visible to the operations under verification:
the `patient` collection and the `models` collection (model documents
are opaque here, kept as numeric tags). -/
structure DB where
  patient : List PatientRec
  models : List ℕ
deriving DecidableEq, Repr

/-- Decidable equality of outcomes, used to evaluate the operations at
concrete inputs. -/
instance {α β : Type} [DecidableEq α] [DecidableEq β] :
    DecidableEq (Except α β)
  | .error a, .error b =>
    if h : a = b then .isTrue (congrArg Except.error h)
    else .isFalse fun hc => h (Except.error.inj hc)
  | .error _, .ok _ => .isFalse fun hc => Except.noConfusion hc
  | .ok _, .error _ => .isFalse fun hc => Except.noConfusion hc
  | .ok a, .ok b =>
    if h : a = b then .isTrue (congrArg Except.ok h)
    else .isFalse fun hc => h (Except.ok.inj hc)

/-- `self.database.patient.find({"internal_info": {"internal_id": id, "series": s}})`:
exact embedded-document match on both identity fields. -/
def findByInfo (db : DB) (internal_id : ℤ) (s : SVal) : List PatientRec :=
  db.patient.filter (fun p => p.internal_id == internal_id && p.series == s)

/-- `self.database.patient.find({"internal_info.internal_id": id})`. -/
def findById (db : DB) (internal_id : ℤ) : List PatientRec :=
  db.patient.filter (fun p => p.internal_id == internal_id)

/-- Error message of the ambiguous-lookup `SystemExit`. -/
def tooManyMsg : String := "More than one patient entry found."

/-- Inner helper `to_query` of `DBOps.get_patient_collection`: query by
full identity when `series` is truthy, by `internal_id` alone otherwise;
more than one match raises `SystemExit`. -/
def to_query (db : DB) (internal_id : ℤ) (series : Option SVal) :
    Except String (List PatientRec) :=
  match series with
  | some s =>
    if svalTruthy s then
      let query := findByInfo db internal_id s
      if query.length > 1 then .error tooManyMsg else .ok query
    else
      let query := findById db internal_id
      if query.length > 1 then .error tooManyMsg else .ok query
  | none =>
    let query := findById db internal_id
    if query.length > 1 then .error tooManyMsg else .ok query

/-- `DBOps.get_patient_collection`: for a list series, query with the
given order and, when that returns no document, retry with the pair
reversed; exceptions raised by `to_query` propagate. -/
def get_patient_collection (db : DB) (internal_id : ℤ)
    (series : Option SeriesArg) : Except String (List PatientRec) :=
  match series with
  | some (.pair a b) =>
    match to_query db internal_id (some (.list [a, b])) with
    | .error e => .error e
    | .ok query =>
      if query.isEmpty then to_query db internal_id (some (.list [b, a]))
      else .ok query
  | some (.scalar s) => to_query db internal_id (some (.str s))
  | none => to_query db internal_id none

/-! ## Cohort dimension aggregation -/

/-- The `min`/`max` sub-document of a cohort's `height` or `weight` field. -/
structure Bounds where
  bmin : Option ℚ
  bmax : Option ℚ
deriving DecidableEq, Repr

/-- One step of the `elif` chain inside
`DBOps._update_max_min_patient_dimensions_in_cohort` (and, identically,
inside `set_max_min_patient_dimensions_in_cohort`) for one dimension:
fold one patient's value `v` into the cohort bounds `b`. -/
def foldStep (b : Bounds) (v : Option ℚ) : Bounds :=
  match v with
  | none => b
  | some x =>
    match b.bmin, b.bmax with
    | some mn, mx =>
      if x < mn then ⟨some x, mx⟩
      else
        match mx with
        | some mxv => if x > mxv then ⟨some mn, some x⟩ else ⟨some mn, some mxv⟩
        | none => ⟨some mn, none⟩
    | none, some mxv => if x > mxv then ⟨none, some x⟩ else ⟨none, some mxv⟩
    | none, none => ⟨some x, some x⟩

/-- The `height`/`weight` projection of a patient document, as read by
the cohort aggregation (`find_one(..., {"weight", "height"})`). -/
structure PatientDims where
  height : Option ℚ
  weight : Option ℚ
deriving DecidableEq, Repr

/-- The `height`/`weight` bounds stored on a cohort document. -/
structure Dims where
  height : Bounds
  weight : Bounds
deriving DecidableEq, Repr

/-- The inner `for i in ["height", "weight"]` loop: fold one patient's
dimensions into the cohort bounds. -/
def foldPatientDims (c : Dims) (p : PatientDims) : Dims :=
  { height := foldStep c.height p.height, weight := foldStep c.weight p.weight }

/-- `DBOps._update_max_min_patient_dimensions_in_cohort`, as a function of
the cohort's stored bounds and the dimension documents of the patients in
the `patient_ids` argument: fold each patient in order. -/
def update_max_min_patient_dimensions_in_cohort (c : Dims)
    (patients : List PatientDims) : Dims :=
  patients.foldl foldPatientDims c

/-- A document of the `patient-cohort` collection, restricted to the
fields the operations under verification touch.  The cohort id is left
implicit: every operation modelled here acts on one cohort document. -/
structure Cohort where
  patient_ids : List ℕ
  number_patients : ℕ
  dims : Dims
deriving DecidableEq, Repr

/-- Mongo's `$addToSet` with `$each`: append each listed element that is
not already a member, preserving the order of the update. -/
def addToSet (l : List ℕ) (new : List ℕ) : List ℕ :=
  new.foldl (fun acc x => if x ∈ acc then acc else acc ++ [x]) l

/-- Dimension document of the patient with Mongo id `pid`
(`self.database.patient.find_one({"_id": ObjectId(id_)}, {"weight", "height"})`).
The source crashes when the id resolves to no document; here an absent id
yields absent dimensions, which the fold ignores. -/
def lookupDims (patients : List PatientRec) (pid : ℕ) : PatientDims :=
  match patients.find? (fun p => p.pid == pid) with
  | some p => ⟨p.height, p.weight⟩
  | none => ⟨none, none⟩

/-- `DBOps.add_patients_to_cohort` on the targeted cohort document:
`$addToSet` the given patient ids, set `number_patients` to the length of
the resulting id list, then fold the *given* ids' dimensions into the
stored bounds. -/
def add_patients_to_cohort (patients : List PatientRec) (c : Cohort)
    (patient_ids : List ℕ) : Cohort :=
  let ids := addToSet c.patient_ids patient_ids
  { patient_ids := ids
    number_patients := ids.length
    dims := update_max_min_patient_dimensions_in_cohort c.dims
      (patient_ids.map (lookupDims patients)) }

/-- `DBOps.set_max_min_patient_dimensions_in_cohort` on the targeted
cohort document: fold every member's dimensions into the *stored* bounds
(the stored bounds are not cleared first). -/
def set_max_min_patient_dimensions_in_cohort (patients : List PatientRec)
    (c : Cohort) : Cohort :=
  { c with
    dims := update_max_min_patient_dimensions_in_cohort c.dims
      (c.patient_ids.map (lookupDims patients)) }

/-- Minimum of a list of rationals, `none` on the empty list.  Spec-side
notion used to state what a from-scratch recompute would return. -/
def minOfList (l : List ℚ) : Option ℚ :=
  match l with
  | [] => none
  | x :: xs => some (xs.foldl min x)

/-- Maximum of a list of rationals, `none` on the empty list. -/
def maxOfList (l : List ℚ) : Option ℚ :=
  match l with
  | [] => none
  | x :: xs => some (xs.foldl max x)

/-- The values of a dimension that are present (`is not None`). -/
def presentVals (vs : List (Option ℚ)) : List ℚ := vs.filterMap id

/-! ## Demographics update and derived metrics -/

/-- Message of the `ZeroDivisionError` raised by `weight / (height/100)**2`
when the squared height is zero. -/
def zeroDivMsg : String := "ZeroDivisionError: float division by zero"

/-- Message of the `ValueError` raised by `math.sqrt` on a negative
argument. -/
def sqrtDomainMsg : String := "ValueError: math domain error"

/-- `utils.calculate_bmi`: `round(weight / (height / 100) ** 2, 2)` after
`None` checks.  The 2-decimal float rounding is the parameter `round2`;
the division raises `ZeroDivisionError` when the squared height is zero;
the `math.isnan` guard is unreachable for rationals. -/
def calculate_bmi (round2 : ℚ → ℚ) (weight height : Option ℚ) :
    Except String (Option ℚ) :=
  match weight, height with
  | some w, some h =>
    if (h / 100) ^ 2 = 0 then .error zeroDivMsg
    else .ok (some (round2 (w / (h / 100) ^ 2)))
  | _, _ => .ok none

/-- `utils.calculate_mosteller_bsa`:
`round(math.sqrt(weight * height / 3600), 2)` after `None` checks.
`math.sqrt` raises `ValueError` when its argument is negative; on a
non-negative argument the rounded square root is the parameter `sqrt2`. -/
def calculate_mosteller_bsa (sqrt2 : ℚ → ℚ) (weight height : Option ℚ) :
    Except String (Option ℚ) :=
  match weight, height with
  | some w, some h =>
    if w * h / 3600 < 0 then .error sqrtDomainMsg
    else .ok (some (sqrt2 (w * h / 3600)))
  | _, _ => .ok none

/-- Python's `q in range(0, 121)` for a numeric `q`: membership in the
*integer* sequence `0, 1, ..., 120`, true only for integral values. -/
def inPyRange (q : ℚ) : Bool :=
  q.den == 1 && decide (0 ≤ q.num) && decide (q.num ≤ 120)

/-- Python truthiness of an optional number (`if age:` etc.): `None` and
zero are falsy. -/
def qTruthy : Option ℚ → Bool
  | none => false
  | some x => x != 0

/-- Python truthiness of an optional string: `None` and `""` are falsy. -/
def sTruthy : Option String → Bool
  | none => false
  | some s => s != ""

/-- `update_many({"internal_info.internal_id": id}, {"$set": ...})`:
apply `f` to every patient document with the given internal id. -/
def updMatching (db : DB) (internal_id : ℤ) (f : PatientRec → PatientRec) : DB :=
  { db with
    patient := db.patient.map (fun p => if p.internal_id == internal_id then f p else p) }

/-- `find_one({"internal_info.internal_id": id}, ...)`: first matching
patient document, if any. -/
def findOneById (db : DB) (internal_id : ℤ) : Option PatientRec :=
  db.patient.find? (fun p => p.internal_id == internal_id)

/-- Accepted `gender` values. -/
def genderValues : List String := ["male", "female"]

/-- Accepted `origin_location` values. -/
def locValues : List String :=
  ["europe", "asia_pacific", "north_south_america", "middle_east_africa"]

/-- Message for the `TypeError` Python raises when `find_one` returns
`None` and the code subscripts it. -/
def noPatientMsg : String := "TypeError: no patient entry found"

/-- The `if height:` block of `update_human_demographics`: store the new
height on every matching document, then recompute `bmi`/`bsa` from the
stored weight of the first matching document when that weight is present.
Both derived metrics are computed before either is written, so a raise in
`calculate_bmi`/`calculate_mosteller_bsa` leaves `bmi`/`bsa` untouched
while the new height is already stored. -/
def setHeightBlock (round2 sqrt2 : ℚ → ℚ) (db : DB) (internal_id : ℤ)
    (height : Option ℚ) : DB × Except String Unit :=
  if qTruthy height then
    let db1 := updMatching db internal_id (fun p => { p with height := height })
    match findOneById db1 internal_id with
    | none => (db1, .error noPatientMsg)
    | some doc =>
      match doc.weight with
      | none => (db1, .ok ())
      | some w =>
        match calculate_bmi round2 (some w) height with
        | .error e => (db1, .error e)
        | .ok bmi =>
          match calculate_mosteller_bsa sqrt2 (some w) height with
          | .error e => (db1, .error e)
          | .ok bsa =>
            let db2 := updMatching db1 internal_id (fun p => { p with bmi := bmi })
            (updMatching db2 internal_id (fun p => { p with bsa := bsa }), .ok ())
  else (db, .ok ())

/-- The `if weight:` block of `update_human_demographics`: store the new
weight, then recompute `bmi`/`bsa` from the stored height of the first
matching document when that height is present; a raise in the derived
metrics leaves `bmi`/`bsa` untouched with the new weight stored. -/
def setWeightBlock (round2 sqrt2 : ℚ → ℚ) (db : DB) (internal_id : ℤ)
    (weight : Option ℚ) : DB × Except String Unit :=
  if qTruthy weight then
    let db1 := updMatching db internal_id (fun p => { p with weight := weight })
    match findOneById db1 internal_id with
    | none => (db1, .error noPatientMsg)
    | some doc =>
      match doc.height with
      | none => (db1, .ok ())
      | some h =>
        match calculate_bmi round2 weight (some h) with
        | .error e => (db1, .error e)
        | .ok bmi =>
          match calculate_mosteller_bsa sqrt2 weight (some h) with
          | .error e => (db1, .error e)
          | .ok bsa =>
            let db2 := updMatching db1 internal_id (fun p => { p with bmi := bmi })
            (updMatching db2 internal_id (fun p => { p with bsa := bsa }), .ok ())
  else (db, .ok ())

/-- The `origin_location` validation and update at the end of
`update_human_demographics`. -/
def setLocBlock (db : DB) (internal_id : ℤ) (loc : Option String) :
    DB × Except String Unit :=
  if loc.any (fun s => decide (s ∉ locValues)) then
    (db, .error "Origin location not in the accepted values/format.")
  else
    (if sTruthy loc then
      updMatching db internal_id (fun p => { p with origin_location := loc })
    else db, .ok ())

/-- Sequencing of the weight block and the location block, exactly as in
the source (a raise in the weight block skips the rest). -/
def weightLocPhase (round2 sqrt2 : ℚ → ℚ) (db : DB) (internal_id : ℤ)
    (weight : Option ℚ) (loc : Option String) : DB × Except String Unit :=
  match setWeightBlock round2 sqrt2 db internal_id weight with
  | (db4, .error e) => (db4, .error e)
  | (db4, .ok _) => setLocBlock db4 internal_id loc

/-- Sequencing of the height, weight and location blocks, exactly as in
the source (a raise in the height block skips the rest). -/
def heightWeightLocPhase (round2 sqrt2 : ℚ → ℚ) (db : DB) (internal_id : ℤ)
    (height weight : Option ℚ) (loc : Option String) :
    DB × Except String Unit :=
  match setHeightBlock round2 sqrt2 db internal_id height with
  | (db3, .error e) => (db3, .error e)
  | (db3, .ok _) => weightLocPhase round2 sqrt2 db3 internal_id weight loc

/-- `DBOps.update_human_demographics`.  Validation and updates are
interleaved exactly as in the source: the `isinstance` checks on
age/height/weight always pass here because those arguments are typed as
optional rationals; a failed validation raises after the earlier updates
have already been written. -/
def update_human_demographics (round2 sqrt2 : ℚ → ℚ) (db : DB)
    (internal_id : ℤ) (age : Option ℚ) (gender : Option String)
    (height weight : Option ℚ) (loc : Option String) :
    DB × Except String Unit :=
  if age.any (fun a => !inPyRange a) then
    (db, .error "Age not inside the valid range.")
  else
    let db1 := if qTruthy age then
        updMatching db internal_id (fun p => { p with age := age }) else db
    if gender.any (fun g => decide (g ∉ genderValues)) then
      (db1, .error "Gender not male/female.")
    else
      let db2 := if sTruthy gender then
          updMatching db1 internal_id (fun p => { p with gender := gender }) else db1
      heightWeightLocPhase round2 sqrt2 db2 internal_id height weight loc

/-! ## Batch upload

`DBOps.upload_patients` is modelled on the `patients_list` path: one
`UploadEntry` per element of `patients_list`, carrying the identity used
for the duplicate check together with the parsed contents of the entry's
`patient_collection.json` and `model_collection.json` files.  The
file-existence checks of the first loop (`FileNotFoundError`) live on the
filesystem and are elided; like the duplicate check they run before any
insertion.  The `internal_id_list` path differs only in where the files
are read from. -/

/-- One element of `patients_list`, together with the JSON documents read
for it from disk.  `model_json` is the opaque model document. -/
structure UploadEntry where
  human : ℤ
  series : SeriesArg
  pat_json : PatientRec
  model_json : ℕ
deriving DecidableEq, Repr

/-- Message of the duplicate-patient `SystemExit`. -/
def duplicateMsg : String := "Patient already present in the database."

/-- First loop of `upload_patients`: for every entry, raise `SystemExit`
when a document with the entry's identity already exists; lookup
exceptions propagate.  No document is written in this phase. -/
def uploadCheckPhase (db : DB) : List UploadEntry → Except String Unit
  | [] => .ok ()
  | e :: rest =>
    match get_patient_collection db e.human (some e.series) with
    | .error msg => .error msg
    | .ok query =>
      if query.isEmpty then uploadCheckPhase db rest else .error duplicateMsg

/-- Second loop of `upload_patients`: re-check each entry against the
*current* database, insert its model document and then its patient
document (with the model reference attached), and collect the new patient
ids; an entry that now has a match raises `SystemExit`, leaving the
documents inserted for earlier entries in place.  Mongo's generated ids
are modelled by the collection lengths at insertion time. -/
def uploadInsertPhase (db : DB) (acc : List ℕ) :
    List UploadEntry → DB × Except String (List ℕ)
  | [] => (db, .ok acc)
  | e :: rest =>
    match get_patient_collection db e.human (some e.series) with
    | .error msg => (db, .error msg)
    | .ok query =>
      if query.isEmpty then
        let model_id := db.models.length
        let db1 : DB := { db with models := db.models ++ [e.model_json] }
        let newPat : PatientRec :=
          { e.pat_json with models := model_id, pid := db1.patient.length }
        let db2 : DB := { db1 with patient := db1.patient ++ [newPat] }
        uploadInsertPhase db2 (acc ++ [newPat.pid]) rest
      else (db, .error duplicateMsg)

/-- `DBOps.upload_patients`: validate every entry, then insert.  The
returned database is the state at return or at the raise. -/
def upload_patients (db : DB) (entries : List UploadEntry) :
    DB × Except String (List ℕ) :=
  match uploadCheckPhase db entries with
  | .error msg => (db, .error msg)
  | .ok _ => uploadInsertPhase db [] entries

/-! ## Invariants and sample data -/

/-- Weak bounds invariant: whenever both bounds are present, min ≤ max.
(States with a single absent bound are allowed here.) -/
def Bounds.leOK : Bounds → Bool
  | ⟨some mn, some mx⟩ => decide (mn ≤ mx)
  | _ => true

/-- Full bounds invariant: the min is absent exactly when the max is, and
min ≤ max when both are present. -/
def Bounds.invOK : Bounds → Bool
  | ⟨some mn, some mx⟩ => decide (mn ≤ mx)
  | ⟨none, none⟩ => true
  | _ => false

/-- A cohort document with no members and no recorded bounds, the state a
cohort is in before any patient is added. -/
def emptyCohort : Cohort := ⟨[], 0, ⟨⟨none, none⟩, ⟨none, none⟩⟩⟩

/-- Two sample patient documents used to evaluate the cohort operations
at concrete inputs. -/
def demoPatients : List PatientRec :=
  [{ pid := 1, internal_id := 1, series := .str "SER00001",
     height := some 7, weight := some 80 },
   { pid := 2, internal_id := 2, series := .str "SER00002",
     height := some 6, weight := some 60 }]

/-- A cohort whose stored height bounds are inverted (min 10 above max 5):
representable in the document store, though not reachable from
`emptyCohort` through the operations modelled here. -/
def skewedCohort : Cohort := ⟨[], 0, ⟨⟨some 10, some 5⟩, ⟨none, none⟩⟩⟩

/-- A cohort whose stored bounds satisfy the bounds invariant. -/
def validCohort : Cohort := ⟨[], 0, ⟨⟨some 1, some 12⟩, ⟨some 50, some 90⟩⟩⟩

/-- A member patient together with a cohort whose stored bounds are
strictly wider than every member value. -/
def stalePatients : List PatientRec :=
  [{ pid := 1, internal_id := 1, series := .str "SER00001",
     height := some 50, weight := some 50 }]

/-- Cohort with stale stored bounds `[1, 100]` and `stalePatients` member 1. -/
def staleCohort : Cohort := ⟨[1], 1, ⟨⟨some 1, some 100⟩, ⟨some 1, some 100⟩⟩⟩

/-- Cohort with member 1 and cleared (absent) stored bounds. -/
def clearedCohort : Cohort := ⟨[1], 1, ⟨⟨none, none⟩, ⟨none, none⟩⟩⟩

/-- Database with one patient stored under the series pair
`["SER00008", "SER00009"]`. -/
def pairDB : DB :=
  ⟨[{ pid := 3, internal_id := 740, series := .list ["SER00008", "SER00009"] }], []⟩

/-- Database holding two patient records for the same identity — both for
the pair identity `(843, ["S5", "S9"])` and for the scalar identity
`(7, "T")` — violating the uniqueness invariant. -/
def ambDB : DB :=
  ⟨[{ pid := 1, internal_id := 843, series := .list ["S5", "S9"] },
    { pid := 2, internal_id := 843, series := .list ["S5", "S9"] },
    { pid := 3, internal_id := 7, series := .str "T" },
    { pid := 4, internal_id := 7, series := .str "T" }], []⟩

/-- An upload entry for identity `(1, "S1")`. -/
def dupEntry : UploadEntry :=
  ⟨1, .scalar "S1", { pid := 0, internal_id := 1, series := .str "S1" }, 7⟩

/-- The empty database. -/
def emptyDB : DB := ⟨[], []⟩

/-- Database already holding a record with identity `(1, "S1")`. -/
def presentDB : DB :=
  ⟨[{ pid := 0, internal_id := 1, series := .str "S1" }], [7]⟩

/-- Patient document used to evaluate the demographics update. -/
def demoPatientC8 : PatientRec :=
  { pid := 0, internal_id := 5, series := .str "SER00001",
    height := some 170, weight := some 70 }

/-- Database holding exactly `demoPatientC8`. -/
def dbC8 : DB := ⟨[demoPatientC8], []⟩

/-- A patient document with internal id 7 and no stored demographics. -/
def patC5 : PatientRec := { pid := 0, internal_id := 7, series := .str "SER00001" }

/-- Database with a single patient under internal id 7. -/
def dbC5 : DB := ⟨[patC5], []⟩

/-- The rational 11/2 = 5.5, given in lowest terms. -/
def elevenHalves : ℚ := ⟨11, 2, by norm_num, by norm_num⟩

/-! ## Lemmas: the min/max fold -/

theorem foldStep_vnone (b : Bounds) : foldStep b none = b := rfl

theorem foldStep_none_none (x : ℚ) :
    foldStep ⟨none, none⟩ (some x) = ⟨some x, some x⟩ := rfl

theorem foldStep_none_some (mx x : ℚ) :
    foldStep ⟨none, some mx⟩ (some x) = ⟨none, some (max mx x)⟩ := by
  simp only [foldStep]
  split_ifs with h1
  · rw [max_eq_right h1.le]
  · rw [max_eq_left (not_lt.1 h1)]

theorem foldStep_some_none (mn x : ℚ) :
    foldStep ⟨some mn, none⟩ (some x) = ⟨some (min mn x), none⟩ := by
  simp only [foldStep]
  split_ifs with h1
  · rw [min_eq_right h1.le]
  · rw [min_eq_left (not_lt.1 h1)]

theorem foldStep_some_some (mn mx x : ℚ) (h : mn ≤ mx) :
    foldStep ⟨some mn, some mx⟩ (some x) =
      ⟨some (min mn x), some (max mx x)⟩ := by
  simp only [foldStep]
  split_ifs with h1 h2
  · rw [min_eq_right h1.le, max_eq_left (h1.le.trans h)]
  · rw [min_eq_left (not_lt.1 h1), max_eq_right h2.le]
  · rw [min_eq_left (not_lt.1 h1), max_eq_left (not_lt.1 h2)]

theorem foldStep_comm (b : Bounds) (u v : Option ℚ) (h : b.leOK = true) :
    foldStep (foldStep b u) v = foldStep (foldStep b v) u := by
  rcases u with _ | x
  · rw [foldStep_vnone, foldStep_vnone]
  rcases v with _ | y
  · rw [foldStep_vnone, foldStep_vnone]
  rcases b with ⟨_ | mn, _ | mx⟩
  · rw [foldStep_none_none, foldStep_none_none,
      foldStep_some_some x x y le_rfl, foldStep_some_some y y x le_rfl,
      min_comm y x, max_comm y x]
  · rw [foldStep_none_some, foldStep_none_some, foldStep_none_some,
      foldStep_none_some, sup_right_comm]
  · rw [foldStep_some_none, foldStep_some_none, foldStep_some_none,
      foldStep_some_none, min_right_comm]
  · have hle : mn ≤ mx := by simpa [Bounds.leOK] using h
    have hx : min mn x ≤ max mx x :=
      (min_le_left mn x).trans (hle.trans (le_max_left mx x))
    have hy : min mn y ≤ max mx y :=
      (min_le_left mn y).trans (hle.trans (le_max_left mx y))
    rw [foldStep_some_some mn mx x hle, foldStep_some_some mn mx y hle,
      foldStep_some_some _ _ y hx, foldStep_some_some _ _ x hy,
      min_right_comm, sup_right_comm]

theorem foldStep_leOK (b : Bounds) (v : Option ℚ) (h : b.leOK = true) :
    (foldStep b v).leOK = true := by
  rcases v with _ | x
  · rwa [foldStep_vnone]
  rcases b with ⟨_ | mn, _ | mx⟩
  · rw [foldStep_none_none]; simp [Bounds.leOK]
  · rw [foldStep_none_some]; simp [Bounds.leOK]
  · rw [foldStep_some_none]; simp [Bounds.leOK]
  · have hle : mn ≤ mx := by simpa [Bounds.leOK] using h
    rw [foldStep_some_some mn mx x hle]
    simp [Bounds.leOK, (min_le_left mn x).trans (hle.trans (le_max_left mx x))]

theorem foldStep_invOK (b : Bounds) (v : Option ℚ) (h : b.invOK = true) :
    (foldStep b v).invOK = true := by
  rcases v with _ | x
  · rwa [foldStep_vnone]
  rcases b with ⟨_ | mn, _ | mx⟩
  · rw [foldStep_none_none]; simp [Bounds.invOK]
  · simp [Bounds.invOK] at h
  · simp [Bounds.invOK] at h
  · have hle : mn ≤ mx := by simpa [Bounds.invOK] using h
    rw [foldStep_some_some mn mx x hle]
    simp [Bounds.invOK, (min_le_left mn x).trans (hle.trans (le_max_left mx x))]

theorem foldl_foldStep_leOK (vs : List (Option ℚ)) (b : Bounds)
    (h : b.leOK = true) : (vs.foldl foldStep b).leOK = true := by
  induction vs generalizing b with
  | nil => exact h
  | cons v tl ih => exact ih _ (foldStep_leOK b v h)

theorem foldl_foldStep_invOK (vs : List (Option ℚ)) (b : Bounds)
    (h : b.invOK = true) : (vs.foldl foldStep b).invOK = true := by
  induction vs generalizing b with
  | nil => exact h
  | cons v tl ih => exact ih _ (foldStep_invOK b v h)

theorem update_dims_eq (c : Dims) (ps : List PatientDims) :
    update_max_min_patient_dimensions_in_cohort c ps =
      ⟨List.foldl foldStep c.height (ps.map PatientDims.height),
       List.foldl foldStep c.weight (ps.map PatientDims.weight)⟩ := by
  induction ps generalizing c with
  | nil => rfl
  | cons p tl ih =>
    rw [show update_max_min_patient_dimensions_in_cohort c (p :: tl) =
        update_max_min_patient_dimensions_in_cohort (foldPatientDims c p) tl from rfl,
      ih]
    rfl

theorem foldl_min_le_init (l : List ℚ) (a : ℚ) : l.foldl min a ≤ a := by
  induction l generalizing a with
  | nil => exact le_rfl
  | cons x tl ih => exact (ih (min a x)).trans (min_le_left a x)

theorem foldl_min_le_mem (l : List ℚ) (a x : ℚ) (hx : x ∈ l) :
    l.foldl min a ≤ x := by
  induction l generalizing a with
  | nil => cases hx
  | cons y tl ih =>
    rcases List.mem_cons.1 hx with rfl | h
    · exact (foldl_min_le_init tl (min a x)).trans (min_le_right a x)
    · exact ih (min a y) h

theorem foldl_min_eq (l : List ℚ) (a : ℚ) (h : ∀ x ∈ l, a ≤ x) :
    l.foldl min a = a := by
  induction l generalizing a with
  | nil => rfl
  | cons y tl ih =>
    rw [List.foldl_cons, min_eq_left (h y (List.mem_cons_self y tl))]
    exact ih a fun x hx => h x (List.mem_cons_of_mem y hx)

theorem le_foldl_max_init (l : List ℚ) (a : ℚ) : a ≤ l.foldl max a := by
  induction l generalizing a with
  | nil => exact le_rfl
  | cons x tl ih => exact (le_max_left a x).trans (ih (max a x))

theorem le_foldl_max_mem (l : List ℚ) (a x : ℚ) (hx : x ∈ l) :
    x ≤ l.foldl max a := by
  induction l generalizing a with
  | nil => cases hx
  | cons y tl ih =>
    rcases List.mem_cons.1 hx with rfl | h
    · exact (le_max_right a x).trans (le_foldl_max_init tl (max a x))
    · exact ih (max a y) h

theorem foldl_max_eq (l : List ℚ) (a : ℚ) (h : ∀ x ∈ l, x ≤ a) :
    l.foldl max a = a := by
  induction l generalizing a with
  | nil => rfl
  | cons y tl ih =>
    rw [List.foldl_cons, max_eq_left (h y (List.mem_cons_self y tl))]
    exact ih a fun x hx => h x (List.mem_cons_of_mem y hx)

theorem foldl_foldStep_some_some (vs : List (Option ℚ)) (mn mx : ℚ)
    (h : mn ≤ mx) :
    List.foldl foldStep ⟨some mn, some mx⟩ vs =
      ⟨some ((presentVals vs).foldl min mn),
       some ((presentVals vs).foldl max mx)⟩ := by
  induction vs generalizing mn mx with
  | nil => simp [presentVals]
  | cons v tl ih =>
    rcases v with _ | x
    · rw [List.foldl_cons, foldStep_vnone, ih mn mx h]
      simp [presentVals]
    · rw [List.foldl_cons, foldStep_some_some mn mx x h,
        ih _ _ ((min_le_left mn x).trans (h.trans (le_max_left mx x)))]
      simp [presentVals]

theorem foldl_foldStep_scratch (vs : List (Option ℚ)) :
    List.foldl foldStep ⟨none, none⟩ vs =
      ⟨minOfList (presentVals vs), maxOfList (presentVals vs)⟩ := by
  induction vs with
  | nil => rfl
  | cons v tl ih =>
    rcases v with _ | x
    · rw [List.foldl_cons, foldStep_vnone, ih]
      simp [presentVals]
    · rw [List.foldl_cons, foldStep_none_none,
        foldl_foldStep_some_some tl x x le_rfl]
      simp [presentVals, minOfList, maxOfList]

theorem minOfList_le (l : List ℚ) (m x : ℚ) (hm : minOfList l = some m)
    (hx : x ∈ l) : m ≤ x := by
  rcases l with _ | ⟨y, tl⟩
  · cases hx
  · rw [minOfList, Option.some.injEq] at hm
    subst hm
    rcases List.mem_cons.1 hx with rfl | h
    · exact foldl_min_le_init tl x
    · exact foldl_min_le_mem tl y x h

theorem le_maxOfList (l : List ℚ) (m x : ℚ) (hm : maxOfList l = some m)
    (hx : x ∈ l) : x ≤ m := by
  rcases l with _ | ⟨y, tl⟩
  · cases hx
  · rw [maxOfList, Option.some.injEq] at hm
    subst hm
    rcases List.mem_cons.1 hx with rfl | h
    · exact le_foldl_max_init tl x
    · exact le_foldl_max_mem tl y x h

/-- Refolding values drawn from the same pool as the scratch fold leaves
the scratch-fold bounds unchanged. -/
theorem foldl_foldStep_fixed (A B : List (Option ℚ))
    (hBA : ∀ y ∈ presentVals B, y ∈ presentVals A) :
    List.foldl foldStep (List.foldl foldStep ⟨none, none⟩ A) B =
      List.foldl foldStep ⟨none, none⟩ A := by
  rw [foldl_foldStep_scratch]
  rcases hA : presentVals A with _ | ⟨a, A'⟩
  · have hB : presentVals B = [] := by
      rcases hBempty : presentVals B with _ | ⟨b, B'⟩
      · rfl
      · have := hBA b (by rw [hBempty]; exact List.mem_cons_self b B')
        rw [hA] at this
        cases this
    rw [show minOfList ([] : List ℚ) = none from rfl,
      show maxOfList ([] : List ℚ) = none from rfl,
      foldl_foldStep_scratch, hB]
    rfl
  · have hmM : A'.foldl min a ≤ A'.foldl max a :=
      (foldl_min_le_init A' a).trans (le_foldl_max_init A' a)
    rw [show minOfList (a :: A') = some (A'.foldl min a) from rfl,
      show maxOfList (a :: A') = some (A'.foldl max a) from rfl,
      foldl_foldStep_some_some B _ _ hmM,
      foldl_min_eq _ _ fun x hx =>
        minOfList_le (a :: A') _ x rfl (by rw [← hA]; exact hBA x hx),
      foldl_max_eq _ _ fun x hx =>
        le_maxOfList (a :: A') _ x rfl (by rw [← hA]; exact hBA x hx)]

/-! ## Lemmas: membership bookkeeping -/

theorem addToSet_cons (l : List ℕ) (x : ℕ) (tl : List ℕ) :
    addToSet l (x :: tl) = addToSet (if x ∈ l then l else l ++ [x]) tl := rfl

theorem addToSet_nodup (new l : List ℕ) (h : l.Nodup) :
    (addToSet l new).Nodup := by
  induction new generalizing l with
  | nil => exact h
  | cons x tl ih =>
    rw [addToSet_cons]
    refine ih _ ?_
    split_ifs with hx
    · exact h
    · simpa [List.nodup_append] using ⟨h, hx⟩

theorem addToSet_mem_left (l : List ℕ) (x : ℕ) (h : x ∈ l) :
    addToSet l [x] = l := by
  simp [addToSet, h]

theorem mem_addToSet (new l : List ℕ) (x : ℕ) :
    x ∈ addToSet l new ↔ x ∈ l ∨ x ∈ new := by
  induction new generalizing l with
  | nil => simp [addToSet]
  | cons y tl ih =>
    rw [addToSet_cons, ih]
    split_ifs with hy
    · simp only [List.mem_cons]
      constructor
      · rintro (h | h)
        · exact Or.inl h
        · exact Or.inr (Or.inr h)
      · rintro (h | rfl | h)
        · exact Or.inl h
        · exact Or.inl hy
        · exact Or.inr h
    · simp only [List.mem_append, List.mem_singleton, List.mem_cons, or_assoc]
      simp

theorem foldl_add_patient_ids (patients : List PatientRec)
    (ls : List (List ℕ)) (c₀ : Cohort) :
    (ls.foldl (fun co l => add_patients_to_cohort patients co l) c₀).patient_ids =
      ls.foldl addToSet c₀.patient_ids := by
  induction ls generalizing c₀ with
  | nil => rfl
  | cons l tl ih => exact ih (add_patients_to_cohort patients c₀ l)

theorem mem_foldl_addToSet (ls : List (List ℕ)) (l₀ : List ℕ) (x : ℕ) :
    x ∈ ls.foldl addToSet l₀ ↔ x ∈ l₀ ∨ x ∈ ls.flatten := by
  induction ls generalizing l₀ with
  | nil => simp
  | cons l tl ih =>
    rw [List.foldl_cons, ih, mem_addToSet]
    simp [or_assoc]

theorem foldl_add_dims (patients : List PatientRec) (ls : List (List ℕ))
    (c₀ : Cohort) :
    (ls.foldl (fun co l => add_patients_to_cohort patients co l) c₀).dims =
      update_max_min_patient_dimensions_in_cohort c₀.dims
        (ls.flatten.map (lookupDims patients)) := by
  induction ls generalizing c₀ with
  | nil => rfl
  | cons l tl ih =>
    rw [List.foldl_cons, ih, List.flatten_cons, List.map_append]
    rw [show (add_patients_to_cohort patients c₀ l).dims =
        update_max_min_patient_dimensions_in_cohort c₀.dims
          (l.map (lookupDims patients)) from rfl]
    rw [update_max_min_patient_dimensions_in_cohort,
      update_max_min_patient_dimensions_in_cohort,
      update_max_min_patient_dimensions_in_cohort, List.foldl_append]

/-! ## Claim C1: order independence of the incremental aggregation -/

/-- C1, counterexample: over an arbitrary stored cohort state the
incremental aggregation is NOT order-independent.  On a cohort whose
stored height bounds are inverted (min 10, max 5), adding patient 1
(height 7) and then patient 2 (height 6) stores different bounds than
the opposite order. -/
theorem add_patients_to_cohort_order_dependent :
    (add_patients_to_cohort demoPatients
        (add_patients_to_cohort demoPatients skewedCohort [1]) [2]).dims ≠
      (add_patients_to_cohort demoPatients
        (add_patients_to_cohort demoPatients skewedCohort [2]) [1]).dims := by
  decide

/-- C1 (amended): adding patients A then B through
`add_patients_to_cohort` stores the same height/weight min and max as
adding B then A, for every cohort state whose stored bounds satisfy
min ≤ max whenever both are present (the states the operations
themselves produce); the fold ignores patients with absent values. -/
theorem add_patients_to_cohort_order_independent (patients : List PatientRec)
    (c : Cohort) (i j : ℕ)
    (hh : c.dims.height.leOK = true) (hw : c.dims.weight.leOK = true) :
    (add_patients_to_cohort patients
        (add_patients_to_cohort patients c [i]) [j]).dims =
      (add_patients_to_cohort patients
        (add_patients_to_cohort patients c [j]) [i]).dims := by
  show foldPatientDims (foldPatientDims c.dims (lookupDims patients i))
        (lookupDims patients j) =
      foldPatientDims (foldPatientDims c.dims (lookupDims patients j))
        (lookupDims patients i)
  simp only [foldPatientDims, Dims.mk.injEq]
  exact ⟨foldStep_comm c.dims.height _ _ hh, foldStep_comm c.dims.weight _ _ hw⟩

/-- Witness for C1 (amended) at concrete inputs. -/
theorem add_patients_to_cohort_order_independent_witness :
    (add_patients_to_cohort demoPatients
        (add_patients_to_cohort demoPatients validCohort [1]) [2]).dims =
      (add_patients_to_cohort demoPatients
        (add_patients_to_cohort demoPatients validCohort [2]) [1]).dims :=
  add_patients_to_cohort_order_independent demoPatients validCohort 1 2
    (by decide) (by decide)

/-! ## Claim C2: the full recompute -/

/-- C2, counterexample: `set_max_min_patient_dimensions_in_cohort` does
not recompute bounds from scratch.  With stored height bounds `[1, 100]`
and a single member of height 50, the call leaves min 1 in place instead
of storing the member minimum 50. -/
theorem set_max_min_not_from_scratch :
    (set_max_min_patient_dimensions_in_cohort stalePatients staleCohort).dims.height.bmin ≠
      minOfList (presentVals
        ((staleCohort.patient_ids.map (lookupDims stalePatients)).map
          PatientDims.height)) := by
  decide

/-- C2 (amended): the operation folds every member value into the bounds
stored before the call, so it recomputes the true member bounds exactly
when the stored bounds start cleared: for every cohort whose stored
height and weight bounds are both absent, after the call the stored min
(resp. max) for each dimension equals the minimum (resp. maximum) of the
present values among the patients referenced in `patient_ids`. -/
theorem set_max_min_computes_bounds_when_cleared (patients : List PatientRec)
    (c : Cohort)
    (hh : c.dims.height = ⟨none, none⟩) (hw : c.dims.weight = ⟨none, none⟩) :
    (set_max_min_patient_dimensions_in_cohort patients c).dims =
      ⟨⟨minOfList (presentVals
          ((c.patient_ids.map (lookupDims patients)).map PatientDims.height)),
        maxOfList (presentVals
          ((c.patient_ids.map (lookupDims patients)).map PatientDims.height))⟩,
       ⟨minOfList (presentVals
          ((c.patient_ids.map (lookupDims patients)).map PatientDims.weight)),
        maxOfList (presentVals
          ((c.patient_ids.map (lookupDims patients)).map PatientDims.weight))⟩⟩ := by
  show update_max_min_patient_dimensions_in_cohort c.dims
      (c.patient_ids.map (lookupDims patients)) = _
  rw [update_dims_eq, hh, hw, foldl_foldStep_scratch, foldl_foldStep_scratch]

/-- Witness for C2 (amended) at concrete inputs. -/
theorem set_max_min_computes_bounds_when_cleared_witness :
    (set_max_min_patient_dimensions_in_cohort stalePatients clearedCohort).dims =
      ⟨⟨minOfList (presentVals
          ((clearedCohort.patient_ids.map (lookupDims stalePatients)).map
            PatientDims.height)),
        maxOfList (presentVals
          ((clearedCohort.patient_ids.map (lookupDims stalePatients)).map
            PatientDims.height))⟩,
       ⟨minOfList (presentVals
          ((clearedCohort.patient_ids.map (lookupDims stalePatients)).map
            PatientDims.weight)),
        maxOfList (presentVals
          ((clearedCohort.patient_ids.map (lookupDims stalePatients)).map
            PatientDims.weight))⟩⟩ :=
  set_max_min_computes_bounds_when_cleared stalePatients clearedCohort rfl rfl

/-! ## Claim C6: the full recompute fixes nothing after incremental adds -/

/-- C6: for every cohort built by a sequence of `add_patients_to_cohort`
calls (so its stored bounds are exactly the incremental fold over its
member set), a subsequent `set_max_min_patient_dimensions_in_cohort`
leaves all four bound fields (height min/max, weight min/max) unchanged. -/
theorem set_max_min_after_adds_unchanged (patients : List PatientRec)
    (ls : List (List ℕ)) (c : Cohort)
    (hc : c = ls.foldl (fun co l => add_patients_to_cohort patients co l)
      emptyCohort) :
    (set_max_min_patient_dimensions_in_cohort patients c).dims = c.dims := by
  show update_max_min_patient_dimensions_in_cohort c.dims
      (c.patient_ids.map (lookupDims patients)) = c.dims
  have hdims : c.dims =
      update_max_min_patient_dimensions_in_cohort
        ⟨⟨none, none⟩, ⟨none, none⟩⟩ (ls.flatten.map (lookupDims patients)) := by
    rw [hc, foldl_add_dims]
    rfl
  have hids : ∀ x, x ∈ c.patient_ids ↔ x ∈ ls.flatten := by
    intro x
    rw [hc, foldl_add_patient_ids, mem_foldl_addToSet]
    simp [emptyCohort]
  have hmem : ∀ (f : PatientDims → Option ℚ) (y : ℚ),
      y ∈ presentVals ((c.patient_ids.map (lookupDims patients)).map f) →
      y ∈ presentVals ((ls.flatten.map (lookupDims patients)).map f) := by
    intro f y hy
    simp only [presentVals, List.mem_filterMap, List.mem_map, id_eq] at hy ⊢
    obtain ⟨o, ⟨d, ⟨i, hi, hdq⟩, hdo⟩, ho⟩ := hy
    exact ⟨o, ⟨d, ⟨i, (hids i).1 hi, hdq⟩, hdo⟩, ho⟩
  rw [update_dims_eq]
  rw [show c.dims = ⟨c.dims.height, c.dims.weight⟩ from rfl]
  have hh : c.dims.height =
      List.foldl foldStep ⟨none, none⟩
        ((ls.flatten.map (lookupDims patients)).map PatientDims.height) := by
    rw [hdims, update_dims_eq]
  have hw : c.dims.weight =
      List.foldl foldStep ⟨none, none⟩
        ((ls.flatten.map (lookupDims patients)).map PatientDims.weight) := by
    rw [hdims, update_dims_eq]
  rw [Dims.mk.injEq]
  constructor
  · rw [hh]
    exact foldl_foldStep_fixed _ _ (hmem PatientDims.height)
  · rw [hw]
    exact foldl_foldStep_fixed _ _ (hmem PatientDims.weight)

/-- Witness for C6 at concrete inputs: a cohort built by two incremental
adds over `demoPatients`. -/
theorem set_max_min_after_adds_unchanged_witness :
    (set_max_min_patient_dimensions_in_cohort demoPatients
        ([[1], [2]].foldl (fun co l => add_patients_to_cohort demoPatients co l)
          emptyCohort)).dims =
      ([[1], [2]].foldl (fun co l => add_patients_to_cohort demoPatients co l)
        emptyCohort).dims :=
  set_max_min_after_adds_unchanged demoPatients [[1], [2]] _ rfl

/-! ## Claim C9: the bounds invariant is preserved -/

/-- C9: both aggregation operations preserve the invariant that, for each
of height and weight, the stored min is absent exactly when the stored
max is, and min ≤ max whenever both are present (`Bounds.invOK`). -/
theorem cohort_bounds_invariant_preserved (patients : List PatientRec)
    (c : Cohort) (pids : List ℕ)
    (hh : c.dims.height.invOK = true) (hw : c.dims.weight.invOK = true) :
    ((add_patients_to_cohort patients c pids).dims.height.invOK = true ∧
      (add_patients_to_cohort patients c pids).dims.weight.invOK = true) ∧
    ((set_max_min_patient_dimensions_in_cohort patients c).dims.height.invOK = true ∧
      (set_max_min_patient_dimensions_in_cohort patients c).dims.weight.invOK = true) := by
  have key : ∀ ps : List PatientDims,
      (update_max_min_patient_dimensions_in_cohort c.dims ps).height.invOK = true ∧
      (update_max_min_patient_dimensions_in_cohort c.dims ps).weight.invOK = true := by
    intro ps
    rw [update_dims_eq]
    exact ⟨foldl_foldStep_invOK _ _ hh, foldl_foldStep_invOK _ _ hw⟩
  exact ⟨key (pids.map (lookupDims patients)),
    key (c.patient_ids.map (lookupDims patients))⟩

/-- Witness for C9 at concrete inputs. -/
theorem cohort_bounds_invariant_preserved_witness :
    ((add_patients_to_cohort demoPatients validCohort [1, 2]).dims.height.invOK = true ∧
      (add_patients_to_cohort demoPatients validCohort [1, 2]).dims.weight.invOK = true) ∧
    ((set_max_min_patient_dimensions_in_cohort demoPatients validCohort).dims.height.invOK = true ∧
      (set_max_min_patient_dimensions_in_cohort demoPatients validCohort).dims.weight.invOK = true) :=
  cohort_bounds_invariant_preserved demoPatients validCohort [1, 2]
    (by decide) (by decide)

/-! ## Claim C10: member list bookkeeping -/

/-- C10: after `add_patients_to_cohort` on a cohort whose member list has
no duplicates and whose `number_patients` equals its length, the member
list still has no duplicates and `number_patients` equals its length;
adding an id that is already a member changes neither field. -/
theorem add_patients_to_cohort_nodup_count (patients : List PatientRec)
    (c : Cohort) (pids : List ℕ) (pid : ℕ)
    (hnd : c.patient_ids.Nodup)
    (hcnt : c.number_patients = c.patient_ids.length) :
    (add_patients_to_cohort patients c pids).patient_ids.Nodup ∧
    (add_patients_to_cohort patients c pids).number_patients =
      (add_patients_to_cohort patients c pids).patient_ids.length ∧
    (pid ∈ c.patient_ids →
      (add_patients_to_cohort patients c [pid]).patient_ids = c.patient_ids ∧
      (add_patients_to_cohort patients c [pid]).number_patients =
        c.number_patients) := by
  refine ⟨addToSet_nodup pids c.patient_ids hnd, rfl, fun hmem => ?_⟩
  have hids : addToSet c.patient_ids [pid] = c.patient_ids :=
    addToSet_mem_left c.patient_ids pid hmem
  exact ⟨hids, by
    show (addToSet c.patient_ids [pid]).length = c.number_patients
    rw [hids, hcnt]⟩

/-- Witness for C10 at concrete inputs: member 1 is re-added. -/
theorem add_patients_to_cohort_nodup_count_witness :
    (add_patients_to_cohort stalePatients staleCohort [1, 2]).patient_ids.Nodup ∧
    (add_patients_to_cohort stalePatients staleCohort [1, 2]).number_patients =
      (add_patients_to_cohort stalePatients staleCohort [1, 2]).patient_ids.length ∧
    (1 ∈ staleCohort.patient_ids →
      (add_patients_to_cohort stalePatients staleCohort [1]).patient_ids =
        staleCohort.patient_ids ∧
      (add_patients_to_cohort stalePatients staleCohort [1]).number_patients =
        staleCohort.number_patients) :=
  add_patients_to_cohort_nodup_count stalePatients staleCohort [1, 2] 1
    (by decide) (by decide)

/-! ## Lemmas: patient lookup -/

theorem length_filter_or {α : Type} (l : List α) (p q : α → Bool)
    (h : ∀ x ∈ l, ¬(p x = true ∧ q x = true)) :
    (l.filter fun x => p x || q x).length =
      (l.filter p).length + (l.filter q).length := by
  induction l with
  | nil => rfl
  | cons x tl ih =>
    have htl := ih fun y hy => h y (List.mem_cons_of_mem x hy)
    have hx := h x (List.mem_cons_self x tl)
    cases hp : p x <;> cases hq : q x
    · simpa [List.filter_cons, hp, hq] using htl
    · simp [List.filter_cons, hp, hq]
      omega
    · simp [List.filter_cons, hp, hq]
      omega
    · exact absurd ⟨hp, hq⟩ hx

/-! ## Claim C3: two-element series lookup in either order -/

/-- C3: under the at-most-one-record-per-identity invariant (a series
pair is unordered, so at most one document matches either orientation),
`get_patient_collection` returns the same result for the pair `[a, b]`
and the reversed pair `[b, a]`: when the first orientation finds nothing,
the query is retried with the pair reversed. -/
theorem get_patient_collection_pair_order_irrelevant (db : DB)
    (internal_id : ℤ) (a b : String)
    (h : (db.patient.filter fun p => p.internal_id == internal_id &&
        (p.series == SVal.list [a, b] || p.series == SVal.list [b, a])).length ≤ 1) :
    get_patient_collection db internal_id (some (.pair a b)) =
      get_patient_collection db internal_id (some (.pair b a)) := by
  by_cases hab : a = b
  · subst hab; rfl
  have hdisj : ∀ p ∈ db.patient,
      ¬((p.internal_id == internal_id && p.series == SVal.list [a, b]) = true ∧
        (p.internal_id == internal_id && p.series == SVal.list [b, a]) = true) := by
    rintro p _ ⟨h1, h2⟩
    simp only [Bool.and_eq_true, beq_iff_eq] at h1 h2
    obtain ⟨-, h2s⟩ := h2
    rw [h1.2] at h2s
    simp only [SVal.list.injEq, List.cons.injEq, and_true] at h2s
    exact hab h2s.1
  rw [show (fun p : PatientRec => p.internal_id == internal_id &&
      (p.series == SVal.list [a, b] || p.series == SVal.list [b, a])) =
      (fun p => (p.internal_id == internal_id && p.series == SVal.list [a, b]) ||
        (p.internal_id == internal_id && p.series == SVal.list [b, a]))
      from funext fun p => by rw [Bool.and_or_distrib_left]] at h
  rw [length_filter_or db.patient _ _ hdisj] at h
  have hsum : (findByInfo db internal_id (SVal.list [a, b])).length +
      (findByInfo db internal_id (SVal.list [b, a])).length ≤ 1 := h
  simp only [get_patient_collection, to_query, svalTruthy, List.isEmpty_cons,
    Bool.not_false, if_true]
  rcases hm1 : findByInfo db internal_id (SVal.list [a, b]) with _ | ⟨d1, tl1⟩
  · rcases hm2 : findByInfo db internal_id (SVal.list [b, a]) with _ | ⟨d2, tl2⟩
    · simp [hm1, hm2]
    · rw [hm1, hm2] at hsum
      have htl2 : tl2 = [] := by
        rcases tl2 with _ | _
        · rfl
        · simp at hsum
      subst htl2
      simp [hm1, hm2]
  · rw [hm1] at hsum
    have htl1 : tl1 = [] := by
      rcases tl1 with _ | _
      · rfl
      · simp at hsum
        omega
    subst htl1
    have hm2 : findByInfo db internal_id (SVal.list [b, a]) = [] := by
      rcases hx : findByInfo db internal_id (SVal.list [b, a]) with _ | _
      · rfl
      · rw [hx] at hsum
        simp at hsum
    simp [hm1, hm2]

/-- Witness for C3 at concrete inputs: the lookup succeeds with the pair
in the stored order and in the reversed order, with the same result. -/
theorem get_patient_collection_pair_order_irrelevant_witness :
    get_patient_collection pairDB 740 (some (.pair "SER00008" "SER00009")) =
      get_patient_collection pairDB 740 (some (.pair "SER00009" "SER00008")) :=
  get_patient_collection_pair_order_irrelevant pairDB 740 "SER00008" "SER00009"
    (by decide)

/-! ## Claim C7: ambiguous lookup is fatal -/

theorem to_query_truthy (db : DB) (internal_id : ℤ) (s : SVal)
    (hs : svalTruthy s = true) :
    to_query db internal_id (some s) =
      (if (findByInfo db internal_id s).length > 1 then .error tooManyMsg
       else .ok (findByInfo db internal_id s)) := by
  simp only [to_query, hs, if_true]

/-- C7: whenever the resolved query matches more than one patient record,
`get_patient_collection` surfaces the `SystemExit` immediately — for a
pair argument the error from the first orientation propagates without the
reversed retry (which only runs on an empty result), and the scalar and
absent-series paths fail the same way. -/
theorem get_patient_collection_ambiguous_fatal (db : DB) (internal_id : ℤ)
    (a b s : String) :
    (1 < (findByInfo db internal_id (.list [a, b])).length →
      get_patient_collection db internal_id (some (.pair a b)) =
        .error tooManyMsg) ∧
    (findByInfo db internal_id (.list [a, b]) = [] →
      1 < (findByInfo db internal_id (.list [b, a])).length →
      get_patient_collection db internal_id (some (.pair a b)) =
        .error tooManyMsg) ∧
    (s ≠ "" → 1 < (findByInfo db internal_id (.str s)).length →
      get_patient_collection db internal_id (some (.scalar s)) =
        .error tooManyMsg) ∧
    (1 < (findById db internal_id).length →
      get_patient_collection db internal_id none = .error tooManyMsg) := by
  refine ⟨fun h1 => ?_, fun hempty h2 => ?_, fun hs h3 => ?_, fun h4 => ?_⟩
  · simp only [get_patient_collection]
    rw [to_query_truthy db internal_id (SVal.list [a, b]) rfl, if_pos h1]
  · simp only [get_patient_collection]
    rw [to_query_truthy db internal_id (SVal.list [a, b]) rfl, hempty]
    simp only [List.length_nil, Nat.lt_irrefl, if_false, List.isEmpty_nil,
      if_true]
    rw [to_query_truthy db internal_id (SVal.list [b, a]) rfl, if_pos h2]
    rfl
  · have hT : svalTruthy (SVal.str s) = true := by simp [svalTruthy, hs]
    simp only [get_patient_collection]
    rw [to_query_truthy db internal_id (SVal.str s) hT, if_pos h3]
  · simp only [get_patient_collection, to_query]
    rw [if_pos h4]

/-- Witness for C7 at concrete inputs, one per lookup path (the second
conjunct reaches the ambiguity through the reversed-pair retry). -/
theorem get_patient_collection_ambiguous_fatal_witness :
    get_patient_collection ambDB 843 (some (.pair "S5" "S9")) =
      .error tooManyMsg ∧
    get_patient_collection ambDB 843 (some (.pair "S9" "S5")) =
      .error tooManyMsg ∧
    get_patient_collection ambDB 7 (some (.scalar "T")) =
      .error tooManyMsg ∧
    get_patient_collection ambDB 843 none = .error tooManyMsg :=
  ⟨(get_patient_collection_ambiguous_fatal ambDB 843 "S5" "S9" "T").1
      (by decide),
   (get_patient_collection_ambiguous_fatal ambDB 843 "S9" "S5" "T").2.1
      (by decide) (by decide),
   (get_patient_collection_ambiguous_fatal ambDB 7 "S5" "S9" "T").2.2.1
      (by decide) (by decide),
   (get_patient_collection_ambiguous_fatal ambDB 843 "S5" "S9" "T").2.2.2
      (by decide)⟩

/-! ## Claim C4: duplicate upload rejection -/

/-- If some entry of the batch fails its pre-validation lookup (a record
with its identity already exists, or the lookup itself raises), the first
loop of `upload_patients` raises. -/
theorem uploadCheckPhase_error (db : DB) (entries : List UploadEntry)
    (e : UploadEntry) (he : e ∈ entries)
    (hne : get_patient_collection db e.human (some e.series) ≠
      .ok ([] : List PatientRec)) :
    ∃ msg, uploadCheckPhase db entries = .error msg := by
  induction entries with
  | nil => cases he
  | cons e0 rest ih =>
    rcases hq : get_patient_collection db e0.human (some e0.series) with msg | q
    · exact ⟨msg, by simp [uploadCheckPhase, hq]⟩
    · rcases q with _ | ⟨qh, qt⟩
      · rcases List.mem_cons.1 he with rfl | hmem
        · exact absurd hq hne
        · obtain ⟨msg, hmsg⟩ := ih hmem
          exact ⟨msg, by simp [uploadCheckPhase, hq, hmsg]⟩
      · exact ⟨duplicateMsg, by simp [uploadCheckPhase, hq]⟩

/-- C4 (amended): when the batch contains an entry whose identity already
matches a record in the database at call time (or whose lookup raises),
`upload_patients` raises during pre-validation and the database is
unchanged: no patient or model document is inserted.  (A duplicate that
only comes to exist during the call is also rejected, but after the
documents of earlier entries were inserted — see the counterexample.) -/
theorem upload_patients_rejects_preexisting (db : DB)
    (entries : List UploadEntry)
    (h : ∃ e ∈ entries, get_patient_collection db e.human (some e.series) ≠
      .ok ([] : List PatientRec)) :
    (upload_patients db entries).1 = db ∧
    ∃ msg, (upload_patients db entries).2 = .error msg := by
  obtain ⟨e, he, hne⟩ := h
  obtain ⟨msg, hmsg⟩ := uploadCheckPhase_error db entries e he hne
  rw [upload_patients, hmsg]
  exact ⟨rfl, msg, rfl⟩

/-- C4, counterexample: a batch containing the same new patient twice
raises the duplicate `SystemExit` (the record comes to exist during the
call), yet the database is NOT unchanged: the first copy of the model and
patient documents stays inserted. -/
theorem upload_patients_duplicate_in_batch_not_atomic :
    (upload_patients emptyDB [dupEntry, dupEntry]).2 = .error duplicateMsg ∧
    (upload_patients emptyDB [dupEntry, dupEntry]).1 ≠ emptyDB := by
  decide

/-- Witness for C4 (amended) at concrete inputs. -/
theorem upload_patients_rejects_preexisting_witness :
    (upload_patients presentDB [dupEntry]).1 = presentDB ∧
    ∃ msg, (upload_patients presentDB [dupEntry]).2 = .error msg :=
  upload_patients_rejects_preexisting presentDB [dupEntry]
    ⟨dupEntry, List.mem_singleton.2 rfl, by decide⟩

/-! ## Lemmas: demographics updates -/

theorem find?_eq_head?_filter {α : Type} (l : List α) (p : α → Bool) :
    l.find? p = (l.filter p).head? := by
  induction l with
  | nil => rfl
  | cons x tl ih =>
    rw [List.find?_cons, List.filter_cons]
    cases hp : p x
    · rw [ih]
      rfl
    · rfl

theorem filter_updMatching (l : List PatientRec) (internal_id : ℤ)
    (f : PatientRec → PatientRec)
    (hf : ∀ p, (f p).internal_id = p.internal_id) :
    ((l.map fun p => if p.internal_id == internal_id then f p else p).filter
      fun p => p.internal_id == internal_id) =
      (l.filter fun p => p.internal_id == internal_id).map f := by
  induction l with
  | nil => rfl
  | cons x tl ih =>
    by_cases hx : x.internal_id = internal_id
    · have hbx : (x.internal_id == internal_id) = true := beq_iff_eq.2 hx
      have hfx : ((f x).internal_id == internal_id) = true :=
        beq_iff_eq.2 (by rw [hf x, hx])
      rw [List.map_cons, if_pos hbx, List.filter_cons, if_pos hfx,
        List.filter_cons, if_pos hbx, List.map_cons, ih]
    · have hbx : ¬(x.internal_id == internal_id) = true := by
        simp [hx]
      rw [List.map_cons, if_neg hbx, List.filter_cons, if_neg hbx,
        List.filter_cons, if_neg hbx, ih]

theorem updMatching_patient (db : DB) (internal_id : ℤ)
    (f : PatientRec → PatientRec) :
    (updMatching db internal_id f).patient =
      db.patient.map fun p => if p.internal_id == internal_id then f p else p := rfl

theorem updMatching_updMatching (db : DB) (internal_id : ℤ)
    (f g : PatientRec → PatientRec)
    (hf : ∀ p, (f p).internal_id = p.internal_id) :
    updMatching (updMatching db internal_id f) internal_id g =
      updMatching db internal_id fun p => g (f p) := by
  simp only [updMatching, List.map_map]
  refine congrArg (fun l => DB.mk l db.models) (List.map_congr_left fun x _ => ?_)
  by_cases hx : x.internal_id = internal_id
  · simp [Function.comp, hx, hf x]
  · simp [Function.comp, hx]

theorem findOneById_updMatching_of_filter (db : DB) (internal_id : ℤ)
    (f : PatientRec → PatientRec) (p : PatientRec)
    (hf : ∀ q, (f q).internal_id = q.internal_id)
    (hp : (db.patient.filter fun q => q.internal_id == internal_id) = [p]) :
    findOneById (updMatching db internal_id f) internal_id = some (f p) := by
  rw [findOneById, find?_eq_head?_filter, updMatching_patient,
    filter_updMatching db.patient internal_id f hf, hp]
  rfl

/-- A single match for the internal id stays a single match after an
`update_many` that keeps the id. -/
theorem filter_updMatching_single (db : DB) (internal_id : ℤ)
    (f : PatientRec → PatientRec) (p : PatientRec)
    (hf : ∀ x, (f x).internal_id = x.internal_id)
    (hp : (db.patient.filter fun q => q.internal_id == internal_id) = [p]) :
    ((updMatching db internal_id f).patient.filter
      fun q => q.internal_id == internal_id) = [f p] := by
  rw [updMatching_patient, filter_updMatching db.patient internal_id f hf, hp]
  rfl

/-- Like `filter_updMatching_single`, for a conditionally applied
`update_many`. -/
theorem filter_updMatching_ite (c : Prop) [Decidable c] (db : DB)
    (internal_id : ℤ) (f : PatientRec → PatientRec) (p : PatientRec)
    (hf : ∀ x, (f x).internal_id = x.internal_id)
    (hp : (db.patient.filter fun q => q.internal_id == internal_id) = [p]) :
    ((if c then updMatching db internal_id f else db).patient.filter
      fun q => q.internal_id == internal_id) = [if c then f p else p] := by
  split_ifs
  · rw [updMatching_patient, filter_updMatching db.patient internal_id f hf, hp]
    rfl
  · exact hp

/-- The squared height in the BMI divisor vanishes exactly for height 0,
so `calculate_bmi` raises `ZeroDivisionError` exactly on a zero height. -/
theorem bmi_div_zero_iff (h : ℚ) : ((h / 100) ^ 2 = 0) ↔ h = 0 := by
  rw [pow_eq_zero_iff (by norm_num : (2 : ℕ) ≠ 0), div_eq_zero_iff]
  constructor
  · rintro (h0 | h100)
    · exact h0
    · exact absurd h100 (by norm_num)
  · exact fun h0 => Or.inl h0

/-- A falsy optional number is `None` or `0`. -/
theorem qTruthy_eq_false (v : Option ℚ) (hf : qTruthy v = false) :
    ∀ x, v = some x → x = 0 := by
  intro x hx
  subst hx
  simpa [qTruthy] using hf

/-- A `None` height skips the height block. -/
theorem setHeightBlock_vnone (round2 sqrt2 : ℚ → ℚ) (db : DB)
    (internal_id : ℤ) :
    setHeightBlock round2 sqrt2 db internal_id none = (db, .ok ()) := rfl

/-- A `None` weight skips the weight block. -/
theorem setWeightBlock_vnone (round2 sqrt2 : ℚ → ℚ) (db : DB)
    (internal_id : ℤ) :
    setWeightBlock round2 sqrt2 db internal_id none = (db, .ok ()) := rfl

/-- A falsy height (`None` or `0`) skips the height block. -/
theorem setHeightBlock_falsy (round2 sqrt2 : ℚ → ℚ) (db : DB)
    (internal_id : ℤ) (height : Option ℚ) (hf : qTruthy height = false) :
    setHeightBlock round2 sqrt2 db internal_id height = (db, .ok ()) := by
  simp only [setHeightBlock, hf, Bool.false_eq_true, if_false]

/-- A falsy weight (`None` or `0`) skips the weight block. -/
theorem setWeightBlock_falsy (round2 sqrt2 : ℚ → ℚ) (db : DB)
    (internal_id : ℤ) (weight : Option ℚ) (hf : qTruthy weight = false) :
    setWeightBlock round2 sqrt2 db internal_id weight = (db, .ok ()) := by
  simp only [setWeightBlock, hf, Bool.false_eq_true, if_false]

/-- Behaviour of the `if height:` block on a database whose only match
for the internal id is `p`: the new height is always stored; when the
stored weight is absent nothing else happens; when it is present,
`bmi`/`bsa` are both recomputed if `weight * height / 3600` is
non-negative, and otherwise `math.sqrt` raises `ValueError` with the new
height stored and `bmi`/`bsa` untouched. -/
theorem setHeightBlock_spec (round2 sqrt2 : ℚ → ℚ) (db : DB)
    (internal_id : ℤ) (p : PatientRec) (h : ℚ) (hh : h ≠ 0)
    (hp : (db.patient.filter fun q => q.internal_id == internal_id) = [p]) :
    setHeightBlock round2 sqrt2 db internal_id (some h) =
      (match p.weight with
       | none =>
         (updMatching db internal_id fun q => { q with height := some h },
          .ok ())
       | some w0 =>
         if w0 * h / 3600 < 0 then
           (updMatching db internal_id fun q => { q with height := some h },
            .error sqrtDomainMsg)
         else
           (updMatching db internal_id fun q =>
             { q with
                 height := some h
                 bmi := some (round2 (w0 / (h / 100) ^ 2))
                 bsa := some (sqrt2 (w0 * h / 3600)) }, .ok ())) := by
  have ht : qTruthy (some h) = true := by
    simpa [qTruthy] using hh
  have hz : ¬((h / 100) ^ 2 = 0) := fun hcon => hh ((bmi_div_zero_iff h).1 hcon)
  have hfind := findOneById_updMatching_of_filter db internal_id
    (fun q => { q with height := some h }) p (fun q => rfl) hp
  simp only [setHeightBlock, ht, eq_self_iff_true, if_true, hfind]
  rcases hqw : p.weight with _ | w0
  · rfl
  · have hbmi : calculate_bmi round2 (some w0) (some h) =
        .ok (some (round2 (w0 / (h / 100) ^ 2))) := by
      simp only [calculate_bmi]
      rw [if_neg hz]
    by_cases hs : w0 * h / 3600 < 0
    · have hbsa : calculate_mosteller_bsa sqrt2 (some w0) (some h) =
          .error sqrtDomainMsg := by
        simp only [calculate_mosteller_bsa]
        rw [if_pos hs]
      simp only [hbmi, hbsa]
      rw [if_pos hs]
    · have hbsa : calculate_mosteller_bsa sqrt2 (some w0) (some h) =
          .ok (some (sqrt2 (w0 * h / 3600))) := by
        simp only [calculate_mosteller_bsa]
        rw [if_neg hs]
      simp only [hbmi, hbsa]
      rw [if_neg hs,
        updMatching_updMatching db internal_id _ _ (by intro q; rfl),
        updMatching_updMatching db internal_id _ _ (by intro q; rfl)]

/-- Behaviour of the `if weight:` block on a database whose only match
for the internal id is `p`: the new weight is always stored; when the
stored height is absent nothing else happens; a stored height of `0`
raises `ZeroDivisionError` in the BMI division, a negative
`weight * height / 3600` raises `ValueError` in `math.sqrt`, in both
cases with the new weight stored and `bmi`/`bsa` untouched; otherwise
both derived metrics are recomputed. -/
theorem setWeightBlock_spec (round2 sqrt2 : ℚ → ℚ) (db : DB)
    (internal_id : ℤ) (p : PatientRec) (w : ℚ) (hw : w ≠ 0)
    (hp : (db.patient.filter fun q => q.internal_id == internal_id) = [p]) :
    setWeightBlock round2 sqrt2 db internal_id (some w) =
      (match p.height with
       | none =>
         (updMatching db internal_id fun q => { q with weight := some w },
          .ok ())
       | some h0 =>
         if h0 = 0 then
           (updMatching db internal_id fun q => { q with weight := some w },
            .error zeroDivMsg)
         else if w * h0 / 3600 < 0 then
           (updMatching db internal_id fun q => { q with weight := some w },
            .error sqrtDomainMsg)
         else
           (updMatching db internal_id fun q =>
             { q with
                 weight := some w
                 bmi := some (round2 (w / (h0 / 100) ^ 2))
                 bsa := some (sqrt2 (w * h0 / 3600)) }, .ok ())) := by
  have ht : qTruthy (some w) = true := by
    simpa [qTruthy] using hw
  have hfind := findOneById_updMatching_of_filter db internal_id
    (fun q => { q with weight := some w }) p (fun q => rfl) hp
  simp only [setWeightBlock, ht, eq_self_iff_true, if_true, hfind]
  rcases hqh : p.height with _ | h0
  · rfl
  · by_cases hz : h0 = 0
    · have hbmi : calculate_bmi round2 (some w) (some h0) = .error zeroDivMsg := by
        simp only [calculate_bmi]
        rw [if_pos ((bmi_div_zero_iff h0).2 hz)]
      simp only [hbmi]
      rw [if_pos hz]
    · have hz2 : ¬((h0 / 100) ^ 2 = 0) := fun hcon =>
        hz ((bmi_div_zero_iff h0).1 hcon)
      have hbmi : calculate_bmi round2 (some w) (some h0) =
          .ok (some (round2 (w / (h0 / 100) ^ 2))) := by
        simp only [calculate_bmi]
        rw [if_neg hz2]
      by_cases hs : w * h0 / 3600 < 0
      · have hbsa : calculate_mosteller_bsa sqrt2 (some w) (some h0) =
            .error sqrtDomainMsg := by
          simp only [calculate_mosteller_bsa]
          rw [if_pos hs]
        simp only [hbmi, hbsa]
        rw [if_neg hz, if_pos hs]
      · have hbsa : calculate_mosteller_bsa sqrt2 (some w) (some h0) =
            .ok (some (sqrt2 (w * h0 / 3600))) := by
          simp only [calculate_mosteller_bsa]
          rw [if_neg hs]
        simp only [hbmi, hbsa]
        rw [if_neg hz, if_neg hs,
          updMatching_updMatching db internal_id _ _ (by intro q; rfl),
          updMatching_updMatching db internal_id _ _ (by intro q; rfl)]

/-- With only a height supplied, `update_human_demographics` is exactly
the height block. -/
theorem update_demographics_height_only (round2 sqrt2 : ℚ → ℚ) (db : DB)
    (internal_id : ℤ) (height : Option ℚ) :
    update_human_demographics round2 sqrt2 db internal_id none none height
      none none = setHeightBlock round2 sqrt2 db internal_id height := by
  rw [update_human_demographics]
  simp only [Option.any_none, Bool.false_eq_true, if_false,
    show qTruthy none = false from rfl, show sTruthy none = false from rfl]
  rw [heightWeightLocPhase]
  rcases hsb : setHeightBlock round2 sqrt2 db internal_id height with ⟨db3, r⟩
  rcases r with e | ⟨⟩
  · rfl
  · rfl

/-- With only a weight supplied, `update_human_demographics` is exactly
the weight block. -/
theorem update_demographics_weight_only (round2 sqrt2 : ℚ → ℚ) (db : DB)
    (internal_id : ℤ) (weight : Option ℚ) :
    update_human_demographics round2 sqrt2 db internal_id none none none
      weight none = setWeightBlock round2 sqrt2 db internal_id weight := by
  rw [update_human_demographics]
  simp only [Option.any_none, Bool.false_eq_true, if_false,
    show qTruthy none = false from rfl, show sTruthy none = false from rfl]
  rw [heightWeightLocPhase, setHeightBlock_vnone]
  show weightLocPhase round2 sqrt2 db internal_id weight none = _
  rw [weightLocPhase]
  rcases hsb : setWeightBlock round2 sqrt2 db internal_id weight with ⟨db4, r⟩
  rcases r with e | ⟨⟩
  · rfl
  · rfl

/-! ## Claim C8: derived metrics on height/weight update -/

/-- C8, counterexample: supplying height −180 to a patient with stored
weight 70 makes `weight * height / 3600` negative, so `math.sqrt` raises
`ValueError` after the new height was already written and before
`bmi`/`bsa` were — the claimed unconditional recompute from the stored
companion value does not happen. -/
theorem update_demographics_negative_height_no_recompute :
    demoPatientC8.weight = some 70 ∧ demoPatientC8.bmi = none ∧
    update_human_demographics id id dbC8 5 none none (some (-180)) none
      none =
      (updMatching dbC8 5 fun q => { q with height := some (-180) },
       .error sqrtDomainMsg) := by
  refine ⟨rfl, rfl, ?_⟩
  have hp : (dbC8.patient.filter fun q => q.internal_id == 5) =
      [demoPatientC8] := rfl
  rw [update_demographics_height_only,
    setHeightBlock_spec id id dbC8 5 demoPatientC8 (-180) (by norm_num) hp]
  simp only [show demoPatientC8.weight = some (70 : ℚ) from rfl]
  rw [if_pos (show (70 : ℚ) * (-180) / 3600 < 0 by norm_num)]

/-- C8 (amended): on a database whose only match for the internal id is
`p`, a supplied non-zero height is stored and `bmi`/`bsa` are recomputed
from the stored weight exactly when that weight is present and
`weight * height / 3600` is non-negative (a negative product raises
`ValueError` in `math.sqrt` with the height stored and `bmi`/`bsa`
unchanged); symmetrically for a supplied non-zero weight, where a stored
height of zero additionally raises `ZeroDivisionError` in the BMI
division.  When the stored companion is absent, `bmi`/`bsa` are left
unchanged. -/
theorem update_demographics_recomputes_bmi_bsa (round2 sqrt2 : ℚ → ℚ)
    (db : DB) (internal_id : ℤ) (p : PatientRec) (h w : ℚ)
    (hp : (db.patient.filter fun q => q.internal_id == internal_id) = [p])
    (hh : h ≠ 0) (hw : w ≠ 0) :
    (update_human_demographics round2 sqrt2 db internal_id none none
        (some h) none none =
      (match p.weight with
       | none =>
         (updMatching db internal_id fun q => { q with height := some h },
          .ok ())
       | some w0 =>
         if w0 * h / 3600 < 0 then
           (updMatching db internal_id fun q => { q with height := some h },
            .error sqrtDomainMsg)
         else
           (updMatching db internal_id fun q =>
             { q with
                 height := some h
                 bmi := some (round2 (w0 / (h / 100) ^ 2))
                 bsa := some (sqrt2 (w0 * h / 3600)) }, .ok ()))) ∧
    (update_human_demographics round2 sqrt2 db internal_id none none none
        (some w) none =
      (match p.height with
       | none =>
         (updMatching db internal_id fun q => { q with weight := some w },
          .ok ())
       | some h0 =>
         if h0 = 0 then
           (updMatching db internal_id fun q => { q with weight := some w },
            .error zeroDivMsg)
         else if w * h0 / 3600 < 0 then
           (updMatching db internal_id fun q => { q with weight := some w },
            .error sqrtDomainMsg)
         else
           (updMatching db internal_id fun q =>
             { q with
                 weight := some w
                 bmi := some (round2 (w / (h0 / 100) ^ 2))
                 bsa := some (sqrt2 (w * h0 / 3600)) }, .ok ()))) :=
  ⟨(update_demographics_height_only round2 sqrt2 db internal_id
      (some h)).trans
    (setHeightBlock_spec round2 sqrt2 db internal_id p h hh hp),
   (update_demographics_weight_only round2 sqrt2 db internal_id
      (some w)).trans
    (setWeightBlock_spec round2 sqrt2 db internal_id p w hw hp)⟩

/-- Witness for C8 (amended) at concrete inputs: on the stored document
(height 170, weight 70), supplying height 180 recomputes both metrics
from the stored weight, and supplying weight 75 recomputes both from the
stored height. -/
theorem update_demographics_recomputes_bmi_bsa_witness :
    update_human_demographics id id dbC8 5 none none (some 180) none none =
      (updMatching dbC8 5 fun q =>
        { q with
            height := some 180
            bmi := some (id ((70 : ℚ) / ((180 : ℚ) / 100) ^ 2))
            bsa := some (id ((70 : ℚ) * 180 / 3600)) }, .ok ()) ∧
    update_human_demographics id id dbC8 5 none none none (some 75) none =
      (updMatching dbC8 5 fun q =>
        { q with
            weight := some 75
            bmi := some (id ((75 : ℚ) / ((170 : ℚ) / 100) ^ 2))
            bsa := some (id ((75 : ℚ) * 170 / 3600)) }, .ok ()) := by
  obtain ⟨h1, h2⟩ := update_demographics_recomputes_bmi_bsa id id dbC8 5
    demoPatientC8 180 75 rfl (by norm_num) (by norm_num)
  constructor
  · simp only [h1, show demoPatientC8.weight = some (70 : ℚ) from rfl]
    rw [if_neg (show ¬((70 : ℚ) * 180 / 3600 < 0) by norm_num)]
  · simp only [h2, show demoPatientC8.height = some (170 : ℚ) from rfl]
    rw [if_neg (show ¬((170 : ℚ) = 0) by norm_num),
      if_neg (show ¬((75 : ℚ) * 170 / 3600 < 0) by norm_num)]

/-! ## Lemmas: when each block of the demographics update raises -/

/-- The location block raises exactly on a supplied out-of-enum
location. -/
theorem setLocBlock_raises_iff (db : DB) (internal_id : ℤ)
    (loc : Option String) :
    (∃ msg, (setLocBlock db internal_id loc).2 = .error msg) ↔
      (∃ s, loc = some s ∧ s ∉ locValues) := by
  by_cases hL : (loc.any fun s => decide (s ∉ locValues)) = true
  · simp only [setLocBlock, hL, if_true]
    constructor
    · intro _
      rcases loc with _ | s
      · simp at hL
      · exact ⟨s, rfl, by simpa using hL⟩
    · intro _
      exact ⟨"Origin location not in the accepted values/format.", rfl⟩
  · have hL2 : (loc.any fun s => decide (s ∉ locValues)) = false := by
      revert hL
      cases loc.any fun s => decide (s ∉ locValues) <;> simp
    simp only [setLocBlock, hL2, Bool.false_eq_true, if_false]
    constructor
    · rintro ⟨msg, hmsg⟩
      simp at hmsg
    · rintro ⟨s, hs, hbad⟩
      rw [hs] at hL2
      simp at hL2
      exact absurd hL2 hbad

/-- The weight-then-location phase raises exactly on a supplied non-zero
weight whose stored companion height is zero or makes
`weight * height / 3600` negative, or on an out-of-enum location. -/
theorem weightLocPhase_raises_iff (round2 sqrt2 : ℚ → ℚ) (db : DB)
    (internal_id : ℤ) (q : PatientRec) (weight : Option ℚ)
    (loc : Option String)
    (hq : (db.patient.filter fun x => x.internal_id == internal_id) = [q]) :
    (∃ msg, (weightLocPhase round2 sqrt2 db internal_id weight loc).2 =
        .error msg) ↔
      ((∃ w, weight = some w ∧ w ≠ 0 ∧ ∃ h0, q.height = some h0 ∧
          (h0 = 0 ∨ w * h0 / 3600 < 0)) ∨
       (∃ s, loc = some s ∧ s ∉ locValues)) := by
  by_cases hWt : qTruthy weight = true
  · rcases weight with _ | w
    · simp [qTruthy] at hWt
    · have hw0 : w ≠ 0 := by simpa [qTruthy] using hWt
      rcases hqh : q.height with _ | h0
      · have hphase : weightLocPhase round2 sqrt2 db internal_id (some w) loc =
            setLocBlock (updMatching db internal_id fun x =>
              { x with weight := some w }) internal_id loc := by
          rw [weightLocPhase,
            setWeightBlock_spec round2 sqrt2 db internal_id q w hw0 hq, hqh]
        rw [hphase, setLocBlock_raises_iff]
        constructor
        · exact fun hc => Or.inr hc
        · rintro (⟨w2, hww, hw2, h0, hh0, _⟩ | hc)
          · cases hh0
          · exact hc
      · by_cases hz : h0 = 0
        · have hphase : weightLocPhase round2 sqrt2 db internal_id (some w)
              loc =
              (updMatching db internal_id fun x => { x with weight := some w },
               .error zeroDivMsg) := by
            rw [weightLocPhase,
              setWeightBlock_spec round2 sqrt2 db internal_id q w hw0 hq]
            simp only [hqh]
            rw [if_pos hz]
          rw [hphase]
          constructor
          · intro _
            exact Or.inl ⟨w, rfl, hw0, h0, rfl, Or.inl hz⟩
          · intro _
            exact ⟨zeroDivMsg, rfl⟩
        · by_cases hs : w * h0 / 3600 < 0
          · have hphase : weightLocPhase round2 sqrt2 db internal_id (some w)
                loc =
                (updMatching db internal_id fun x =>
                  { x with weight := some w }, .error sqrtDomainMsg) := by
              rw [weightLocPhase,
                setWeightBlock_spec round2 sqrt2 db internal_id q w hw0 hq]
              simp only [hqh]
              rw [if_neg hz, if_pos hs]
            rw [hphase]
            constructor
            · intro _
              exact Or.inl ⟨w, rfl, hw0, h0, rfl, Or.inr hs⟩
            · intro _
              exact ⟨sqrtDomainMsg, rfl⟩
          · have hphase : weightLocPhase round2 sqrt2 db internal_id (some w)
                loc =
                setLocBlock (updMatching db internal_id fun x =>
                  { x with
                      weight := some w
                      bmi := some (round2 (w / (h0 / 100) ^ 2))
                      bsa := some (sqrt2 (w * h0 / 3600)) })
                  internal_id loc := by
              rw [weightLocPhase,
                setWeightBlock_spec round2 sqrt2 db internal_id q w hw0 hq]
              simp only [hqh]
              rw [if_neg hz, if_neg hs]
            rw [hphase, setLocBlock_raises_iff]
            constructor
            · exact fun hc => Or.inr hc
            · rintro (⟨w2, hww, hw2, h1, hh1, hcase⟩ | hc)
              · obtain rfl : w2 = w := (Option.some.inj hww).symm
                obtain rfl : h1 = h0 := (Option.some.inj hh1).symm
                rcases hcase with hcase | hcase
                · exact absurd hcase hz
                · exact absurd hcase hs
              · exact hc
  · have hWf : qTruthy weight = false := by
      revert hWt
      cases qTruthy weight <;> simp
    have hphase : weightLocPhase round2 sqrt2 db internal_id weight loc =
        setLocBlock db internal_id loc := by
      rw [weightLocPhase,
        setWeightBlock_falsy round2 sqrt2 db internal_id weight hWf]
    rw [hphase, setLocBlock_raises_iff]
    constructor
    · exact fun hc => Or.inr hc
    · rintro (⟨w, hww, hw2, _⟩ | hc)
      · exact absurd (qTruthy_eq_false weight hWf w hww) hw2
      · exact hc

/-- The height-weight-location phase raises exactly on a supplied
non-zero height with a stored weight making `weight * height / 3600`
negative, on a supplied non-zero weight whose companion height (the new
height when truthy, else the stored one) is zero or makes the product
negative, or on an out-of-enum location. -/
theorem heightWeightLocPhase_raises_iff (round2 sqrt2 : ℚ → ℚ) (db : DB)
    (internal_id : ℤ) (q : PatientRec) (height weight : Option ℚ)
    (loc : Option String)
    (hq : (db.patient.filter fun x => x.internal_id == internal_id) = [q]) :
    (∃ msg, (heightWeightLocPhase round2 sqrt2 db internal_id height weight
        loc).2 = .error msg) ↔
      ((∃ h, height = some h ∧ h ≠ 0 ∧
          ∃ w0, q.weight = some w0 ∧ w0 * h / 3600 < 0) ∨
       (∃ w, weight = some w ∧ w ≠ 0 ∧
          ∃ h0, (if qTruthy height = true then height else q.height) =
              some h0 ∧
            (h0 = 0 ∨ w * h0 / 3600 < 0)) ∨
       (∃ s, loc = some s ∧ s ∉ locValues)) := by
  by_cases hHt : qTruthy height = true
  · rcases height with _ | h
    · simp [qTruthy] at hHt
    · have hh0 : h ≠ 0 := by simpa [qTruthy] using hHt
      simp only [hHt, eq_self_iff_true, if_true]
      rcases hqw : q.weight with _ | w0
      · have hphase : heightWeightLocPhase round2 sqrt2 db internal_id
            (some h) weight loc =
            weightLocPhase round2 sqrt2 (updMatching db internal_id fun x =>
              { x with height := some h }) internal_id weight loc := by
          rw [heightWeightLocPhase,
            setHeightBlock_spec round2 sqrt2 db internal_id q h hh0 hq, hqw]
        have hq2 : ((updMatching db internal_id fun x =>
            { x with height := some h }).patient.filter fun x =>
              x.internal_id == internal_id) =
            [{ q with height := some h }] :=
          filter_updMatching_single db internal_id _ q (fun x => rfl) hq
        rw [hphase, weightLocPhase_raises_iff round2 sqrt2 _ internal_id
          ({ q with height := some h }) weight loc hq2]
        simp only [show ({ q with height := some h } : PatientRec).height =
          some h from rfl]
        constructor
        · rintro (hWB | hL)
          · exact Or.inr (Or.inl hWB)
          · exact Or.inr (Or.inr hL)
        · rintro (⟨h2, hh2, hne, w0, hw0, _⟩ | hWB | hL)
          · cases hw0
          · exact Or.inl hWB
          · exact Or.inr hL
      · by_cases hs : w0 * h / 3600 < 0
        · have hphase : heightWeightLocPhase round2 sqrt2 db internal_id
              (some h) weight loc =
              (updMatching db internal_id fun x => { x with height := some h },
               .error sqrtDomainMsg) := by
            rw [heightWeightLocPhase,
              setHeightBlock_spec round2 sqrt2 db internal_id q h hh0 hq]
            simp only [hqw]
            rw [if_pos hs]
          rw [hphase]
          constructor
          · intro _
            exact Or.inl ⟨h, rfl, hh0, w0, rfl, hs⟩
          · intro _
            exact ⟨sqrtDomainMsg, rfl⟩
        · have hphase : heightWeightLocPhase round2 sqrt2 db internal_id
              (some h) weight loc =
              weightLocPhase round2 sqrt2 (updMatching db internal_id fun x =>
                { x with
                    height := some h
                    bmi := some (round2 (w0 / (h / 100) ^ 2))
                    bsa := some (sqrt2 (w0 * h / 3600)) })
                internal_id weight loc := by
            rw [heightWeightLocPhase,
              setHeightBlock_spec round2 sqrt2 db internal_id q h hh0 hq]
            simp only [hqw]
            rw [if_neg hs]
          have hq2 : ((updMatching db internal_id fun x =>
              { x with
                  height := some h
                  bmi := some (round2 (w0 / (h / 100) ^ 2))
                  bsa := some (sqrt2 (w0 * h / 3600)) }).patient.filter
                fun x => x.internal_id == internal_id) =
              [{ q with
                  height := some h
                  bmi := some (round2 (w0 / (h / 100) ^ 2))
                  bsa := some (sqrt2 (w0 * h / 3600)) }] :=
            filter_updMatching_single db internal_id _ q (fun x => rfl) hq
          rw [hphase, weightLocPhase_raises_iff round2 sqrt2 _ internal_id _
            weight loc hq2]
          simp only [show ({ q with
              height := some h
              bmi := some (round2 (w0 / (h / 100) ^ 2))
              bsa := some (sqrt2 (w0 * h / 3600)) } : PatientRec).height =
            some h from rfl]
          constructor
          · rintro (hWB | hL)
            · exact Or.inr (Or.inl hWB)
            · exact Or.inr (Or.inr hL)
          · rintro (⟨h2, hh2, hne, w2, hw2, hs2⟩ | hWB | hL)
            · obtain rfl : h2 = h := (Option.some.inj hh2).symm
              obtain rfl : w2 = w0 := (Option.some.inj hw2).symm
              exact absurd hs2 hs
            · exact Or.inl hWB
            · exact Or.inr hL
  · have hHf : qTruthy height = false := by
      revert hHt
      cases qTruthy height <;> simp
    have hphase : heightWeightLocPhase round2 sqrt2 db internal_id height
        weight loc = weightLocPhase round2 sqrt2 db internal_id weight loc := by
      rw [heightWeightLocPhase,
        setHeightBlock_falsy round2 sqrt2 db internal_id height hHf]
    rw [hphase, weightLocPhase_raises_iff round2 sqrt2 db internal_id q
      weight loc hq]
    simp only [hHf, Bool.false_eq_true, if_false]
    constructor
    · rintro (hWB | hL)
      · exact Or.inr (Or.inl hWB)
      · exact Or.inr (Or.inr hL)
    · rintro (⟨h, hhh, hne, _⟩ | hWB | hL)
      · exact absurd (qTruthy_eq_false height hHf h hhh) hne
      · exact Or.inl hWB
      · exact Or.inr hL

/-- Shuffling the raise disjunction past the age and gender checks when
both pass. -/
theorem demographics_disjunction_iff (age : Option ℚ)
    (gender : Option String) (hb wb lc : Prop)
    (hA : (age.any fun a => !inPyRange a) = false)
    (hG : (gender.any fun g => decide (g ∉ genderValues)) = false) :
    (hb ∨ wb ∨ lc) ↔
      ((∃ a, age = some a ∧ inPyRange a = false) ∨
       (∃ g, gender = some g ∧ g ∉ genderValues) ∨ hb ∨ wb ∨ lc) := by
  constructor
  · rintro (h | h | h)
    · exact Or.inr (Or.inr (Or.inl h))
    · exact Or.inr (Or.inr (Or.inr (Or.inl h)))
    · exact Or.inr (Or.inr (Or.inr (Or.inr h)))
  · rintro (⟨a, ha, hbad⟩ | ⟨g, hg, hbad⟩ | h | h | h)
    · rw [ha] at hA
      simp at hA
      rw [hA] at hbad
      cases hbad
    · rw [hg] at hG
      simp at hG
      exact absurd hG hbad
    · exact Or.inl h
    · exact Or.inr (Or.inl h)
    · exact Or.inr (Or.inr h)

/-! ## Claim C5: demographic validation -/

/-- C5 (amended): on a database whose only match for the internal id is
`p`, `update_human_demographics` raises if and only if a supplied age
fails the discrete range check (`age in range(0, 121)` holds only for
integer-valued ages between 0 and 120, so non-integer ages are rejected
even inside the interval), a supplied gender is not male/female, a
supplied non-zero height meets a stored weight making
`weight * height / 3600` negative (`ValueError` in `math.sqrt`), a
supplied non-zero weight meets a companion height (the new height when
truthy, else the stored one) that is zero (`ZeroDivisionError`) or makes
the product negative (`ValueError`), or a supplied origin location is
not one of the four enumerated values. -/
theorem update_demographics_raises_iff (round2 sqrt2 : ℚ → ℚ) (db : DB)
    (internal_id : ℤ) (age : Option ℚ) (gender : Option String)
    (height weight : Option ℚ) (loc : Option String) (p : PatientRec)
    (hp : (db.patient.filter fun q => q.internal_id == internal_id) = [p]) :
    (∃ msg, (update_human_demographics round2 sqrt2 db internal_id age
        gender height weight loc).2 = .error msg) ↔
      ((∃ a, age = some a ∧ inPyRange a = false) ∨
       (∃ g, gender = some g ∧ g ∉ genderValues) ∨
       (∃ h, height = some h ∧ h ≠ 0 ∧
          ∃ w0, p.weight = some w0 ∧ w0 * h / 3600 < 0) ∨
       (∃ w, weight = some w ∧ w ≠ 0 ∧
          ∃ h0, (if qTruthy height = true then height else p.height) =
              some h0 ∧
            (h0 = 0 ∨ w * h0 / 3600 < 0)) ∨
       (∃ s, loc = some s ∧ s ∉ locValues)) := by
  by_cases hA : (age.any fun a => !inPyRange a) = true
  · simp only [update_human_demographics, hA, if_true]
    constructor
    · intro _
      left
      rcases age with _ | a
      · simp at hA
      · exact ⟨a, rfl, by simpa using hA⟩
    · intro _
      exact ⟨"Age not inside the valid range.", rfl⟩
  · have hA2 : (age.any fun a => !inPyRange a) = false := by
      revert hA
      cases age.any fun a => !inPyRange a <;> simp
    by_cases hG : (gender.any fun g => decide (g ∉ genderValues)) = true
    · simp only [update_human_demographics, hA2, Bool.false_eq_true,
        if_false, hG, if_true]
      constructor
      · intro _
        right
        left
        rcases gender with _ | g
        · simp at hG
        · exact ⟨g, rfl, by simpa using hG⟩
      · intro _
        exact ⟨"Gender not male/female.", rfl⟩
    · have hG2 : (gender.any fun g => decide (g ∉ genderValues)) = false := by
        revert hG
        cases gender.any fun g => decide (g ∉ genderValues) <;> simp
      have hbody : update_human_demographics round2 sqrt2 db internal_id age
          gender height weight loc =
          heightWeightLocPhase round2 sqrt2
            (if sTruthy gender = true then
              updMatching (if qTruthy age = true then
                  updMatching db internal_id fun x => { x with age := age }
                else db) internal_id fun x => { x with gender := gender }
             else (if qTruthy age = true then
                updMatching db internal_id fun x => { x with age := age }
              else db))
            internal_id height weight loc := by
        rw [update_human_demographics]
        simp only [hA2, Bool.false_eq_true, if_false, hG2]
      have hp1 := filter_updMatching_ite (qTruthy age = true) db internal_id
        (fun x => { x with age := age }) p (fun x => rfl) hp
      have hp2 := filter_updMatching_ite (sTruthy gender = true) _ internal_id
        (fun x => { x with gender := gender }) _ (fun x => rfl) hp1
      have hpw : (if sTruthy gender = true then
          { (if qTruthy age = true then { p with age := age } else p) with
              gender := gender }
         else (if qTruthy age = true then { p with age := age }
          else p)).weight = p.weight := by
        split_ifs <;> rfl
      have hph : (if sTruthy gender = true then
          { (if qTruthy age = true then { p with age := age } else p) with
              gender := gender }
         else (if qTruthy age = true then { p with age := age }
          else p)).height = p.height := by
        split_ifs <;> rfl
      rw [hbody, heightWeightLocPhase_raises_iff round2 sqrt2 _ internal_id _
        height weight loc hp2]
      simp only [hpw, hph]
      exact demographics_disjunction_iff age gender _ _ _ hA2 hG2

/-- C5, counterexample: the supplied age 5.5 is a number inside 0–120, so
by the claim it passes validation; the code raises, because
`age in range(0, 121)` only accepts integer-valued ages. -/
theorem update_demographics_rejects_inrange_fractional_age :
    (0 : ℚ) ≤ elevenHalves ∧ elevenHalves ≤ 120 ∧
    (update_human_demographics id id dbC5 7 (some elevenHalves) none none
      none none).2 = .error "Age not inside the valid range." := by
  decide

/-- Witness for C5 (amended) at concrete inputs: in-domain age, gender,
height and weight together with an out-of-domain origin location, on a
database where internal id 7 resolves to `patC5`. -/
theorem update_demographics_raises_iff_witness :
    (∃ msg, (update_human_demographics id id dbC5 7 (some 63) (some "male")
        (some 180) (some 80) (some "mars")).2 = .error msg) ↔
      ((∃ a, (some (63 : ℚ)) = some a ∧ inPyRange a = false) ∨
       (∃ g, (some "male") = some g ∧ g ∉ genderValues) ∨
       (∃ h, (some (180 : ℚ)) = some h ∧ h ≠ 0 ∧
          ∃ w0, patC5.weight = some w0 ∧ w0 * h / 3600 < 0) ∨
       (∃ w, (some (80 : ℚ)) = some w ∧ w ≠ 0 ∧
          ∃ h0, (if qTruthy (some (180 : ℚ)) = true then some (180 : ℚ)
              else patC5.height) = some h0 ∧
            (h0 = 0 ∨ w * h0 / 3600 < 0)) ∨
       (∃ s, (some "mars") = some s ∧ s ∉ locValues)) :=
  update_demographics_raises_iff id id dbC5 7 (some 63) (some "male")
    (some 180) (some 80) (some "mars") patC5 rfl

end CosmosDBOps
